import Mathlib

/-!
Shallow embedding of the chatbot-flow editor core (`src/src/App.tsx`).

The `App` component's React state is embedded as `AppState`; each event
handler of the component becomes a state-transforming function.  The
floating-point coordinates of the source are embedded as rationals.
Functions imported from the `@xyflow/react` library
(`applyNodeChanges`, `applyEdgeChanges`, `addEdge`,
`screenToFlowPosition`) are not part of this repository's sources; they
are modelled from the specification, as marked on each definition.
-/

namespace ChatbotFlow

/-- A point in viewport or canvas coordinates (the source's `{x, y}`
float pairs, embedded as rationals). -/
structure Pos where
  x : Rat
  y : Rat
deriving Repr, DecidableEq

/-- Node payload, the source's `data: { label: string }`. -/
structure NodeData where
  label : String
deriving Repr, DecidableEq

/-- A React Flow node as used by `App.tsx`: id, type tag, canvas
position and data payload. -/
structure Node where
  id : String
  type : String
  position : Pos
  data : NodeData
deriving Repr, DecidableEq

/-- A React Flow edge as used by `App.tsx`: id and the ids of its
source and target nodes. -/
structure Edge where
  id : String
  source : String
  target : String
deriving Repr, DecidableEq

/-- One `toast(title, { description })` call recorded on the
notification surface. -/
structure Toast where
  title : String
  description : String
deriving Repr, DecidableEq

/-- The pan/zoom viewport transform of the React Flow instance:
translation and zoom. -/
structure Viewport where
  tx : Rat
  ty : Rat
  zoom : Rat
deriving Repr, DecidableEq

/-- Canvas bounding rectangle offsets, the `left`/`top` of
`getBoundingClientRect()` on the wrapper element. -/
structure Rect where
  left : Rat
  top : Rat
deriving Repr, DecidableEq

/-- The React state of the `App` component (`App.tsx` lines 24-36):
`nodes`, `edges` and `selectedNodeId` are the three `useState` cells;
`counter` is the `id` closure variable read by the drop handler
(`let id = 0; const getId = () => ...`); `edgeCounter` backs the
spec-modelled fresh edge ids of `connect`; `toasts` records the calls
made to the `toast` notification collaborator. -/
structure AppState where
  nodes : List Node
  edges : List Edge
  selectedNodeId : Option String
  counter : Nat
  edgeCounter : Nat
  toasts : List Toast
deriving Repr, DecidableEq

/-- The function `getId` (`App.tsx` line 36): returns the identifier
`node_` followed by the decimal counter value and post-increments the
counter (`node_${id++}`). -/
def getId (id : Nat) : String × Nat :=
  ("node_" ++ Nat.repr id, id + 1)

/-- The handler `onNodeClick` (`App.tsx` lines 48-51): stores the
clicked node's id as the selection. -/
def onNodeClick (nodeId : String) (s : AppState) : AppState :=
  { s with selectedNodeId := some nodeId }

/-- The handler `handleLabelChange` (`App.tsx` lines 54-63): maps over
the node list, replacing `data.label` of each node whose id strictly
equals the selected id.  The source compares with `===` against a
possibly `null` `selectedNodeId`; comparing `some node.id` with the
optional selection embeds that (a `null` selection matches no node). -/
def handleLabelChange (newLabel : String) (s : AppState) : AppState :=
  { s with
    nodes := s.nodes.map fun node =>
      if some node.id == s.selectedNodeId then
        { node with data := { label := newLabel } }
      else node }

/-- The derived value `selectedNode` (`App.tsx` line 66): re-derived on
every render as a lookup of the selected id in the node list. -/
def selectedNode (s : AppState) : Option Node :=
  s.nodes.find? fun node => some node.id == s.selectedNodeId

/-- Modelled from the spec: the change-set variants applied to the node
set by `applyNodeChanges` of `@xyflow/react` (library code, not in
`src/`); spec section 4.3 lists add, remove, position-update and select
operations and section 9 gives the variant
`NodeChange = Add | Remove | Move(position) | Select`. -/
inductive NodeChange where
  | add (node : Node)
  | remove (id : String)
  | move (id : String) (position : Pos)
  | select (id : String)
deriving Repr, DecidableEq

/-- Modelled from the spec: application of a single node change.
Per spec section 3 the node data model carries no selection flag (the
Selection Controller tracks selection separately), so a select change
leaves the node set itself unchanged. -/
def applyNodeChange (nodes : List Node) : NodeChange → List Node
  | .add node => nodes ++ [node]
  | .remove i => nodes.filter fun node => node.id != i
  | .move i p => nodes.map fun node =>
      if node.id == i then { node with position := p } else node
  | .select _ => nodes

/-- Modelled from the spec: `applyNodeChanges` of `@xyflow/react`
(library code, not in `src/`); spec section 4.3: applies an ordered
batch of operations to the node set. -/
def applyNodeChanges (changes : List NodeChange) (nodes : List Node) : List Node :=
  changes.foldl applyNodeChange nodes

/-- Modelled from the spec: the change-set variants applied to the edge
set by `applyEdgeChanges` of `@xyflow/react` (library code, not in
`src/`). -/
inductive EdgeChange where
  | add (edge : Edge)
  | remove (id : String)
deriving Repr, DecidableEq

/-- Modelled from the spec: application of a single edge change.  The
spec's clause that an edge add with a missing endpoint is dropped is
not modelled: the source call site (`App.tsx` line 75) passes only the
edge list to `applyEdgeChanges`, so no implementation called there can
consult the node set. -/
def applyEdgeChange (edges : List Edge) : EdgeChange → List Edge
  | .add edge => edges ++ [edge]
  | .remove i => edges.filter fun edge => edge.id != i

/-- Modelled from the spec: `applyEdgeChanges` of `@xyflow/react`
(library code, not in `src/`); spec section 4.3: same batch contract as
the node change application, on the edge set. -/
def applyEdgeChanges (changes : List EdgeChange) (edges : List Edge) : List Edge :=
  changes.foldl applyEdgeChange edges

/-- The handler `onNodesChange` (`App.tsx` lines 69-72): updates only
the node state with the applied change-set. -/
def onNodesChange (changes : List NodeChange) (s : AppState) : AppState :=
  { s with nodes := applyNodeChanges changes s.nodes }

/-- The handler `onEdgesChange` (`App.tsx` lines 74-77): updates only
the edge state with the applied change-set. -/
def onEdgesChange (changes : List EdgeChange) (s : AppState) : AppState :=
  { s with edges := applyEdgeChanges changes s.edges }

/-- Modelled from the spec: `addEdge` of `@xyflow/react` (library code,
not in `src/`); spec section 4.3's `connect`: appends a new edge from
`source` to `target` carrying a freshly generated id, drawn here from a
dedicated counter. -/
def addEdge (source target : String) (edges : List Edge) (edgeCounter : Nat) :
    List Edge × Nat :=
  (edges ++ [{ id := "edge_" ++ Nat.repr edgeCounter,
               source := source, target := target }],
   edgeCounter + 1)

/-- The handler `onConnect` (`App.tsx` lines 79-82): updates the edge
state with the connected edge. -/
def onConnect (source target : String) (s : AppState) : AppState :=
  { s with
    edges := (addEdge source target s.edges s.edgeCounter).1,
    edgeCounter := (addEdge source target s.edges s.edgeCounter).2 }

/-- Modelled from the spec: `screenToFlowPosition` of the React Flow
instance (library code, not in `src/`); spec section 4.2's pan/zoom
part of the Coordinate Mapper: the inverse viewport transform taking a
canvas-relative pointer position to canvas (logical) space. -/
def screenToFlowPosition (vp : Viewport) (p : Pos) : Pos :=
  { x := (p.x - vp.tx) / vp.zoom, y := (p.y - vp.ty) / vp.zoom }

/-- The identity pan/zoom transform: no translation, zoom 1. -/
def identityViewport : Viewport := { tx := 0, ty := 0, zoom := 1 }

/-- The handler `onDrop` (`App.tsx` lines 85-114).  `bounds` embeds
`reactFlowWrapper.current?.getBoundingClientRect()` (none when the
wrapper is not mounted), `flowInstance` embeds the nullable
`reactFlowInstance`, and `payloadType` embeds
`event.dataTransfer.getData(..)` (the empty string when absent).  The
position is computed only when both `bounds` and the instance are
available (the source's `reactFlowBounds && reactFlowInstance?...`
guard); if it is, a node is appended whose id consumes the counter and
whose label interpolates the already incremented counter
(`` `${id} Node` `` runs after `id++`). -/
def onDrop (bounds : Option Rect) (flowInstance : Option Viewport)
    (payloadType : String) (clientX clientY : Rat) (s : AppState) : AppState :=
  if payloadType = "" then s
  else
    let position : Option Pos :=
      match bounds, flowInstance with
      | some b, some vp =>
          some (screenToFlowPosition vp
            { x := clientX - b.left, y := clientY - b.top })
      | _, _ => none
    match position with
    | some pos =>
        { s with
          nodes := s.nodes ++
            [{ id := (getId s.counter).1, type := payloadType, position := pos,
               data := { label := Nat.repr (getId s.counter).2 ++ " Node" } }],
          counter := (getId s.counter).2 }
    | none => s

/-- The local constant `nodesWithNoIncoming` of `handleSave`
(`App.tsx` lines 125-127): the nodes that are not the target of any
edge. -/
def nodesWithNoIncoming (nodes : List Node) (edges : List Edge) : List Node :=
  nodes.filter fun node => !(edges.any fun edge => edge.target == node.id)

/-- The failure toast of `handleSave` (`App.tsx` lines 131-133). -/
def failToast : Toast :=
  { title := "Failed to save the flow",
    description := "More than one node has an empty target handle!" }

/-- The success toast of `handleSave` (`App.tsx` lines 135-137). -/
def successToast : Toast :=
  { title := "Flow saved successfully",
    description := "Continue working!!" }

/-- The handler `handleSave` (`App.tsx` lines 123-139): computes the
nodes without an incoming edge and raises the failure toast when the
graph has more than one node and more than one such node, the success
toast otherwise. -/
def handleSave (s : AppState) : AppState :=
  if s.nodes.length > 1 ∧ (nodesWithNoIncoming s.nodes s.edges).length > 1 then
    { s with toasts := s.toasts ++ [failToast] }
  else
    { s with toasts := s.toasts ++ [successToast] }

/-- The trace of successive `getId` calls: `idTrace n c` lists, for `n`
calls starting from counter value `c`, the produced identifier paired
with the counter value the call consumed. -/
def idTrace : Nat → Nat → List (String × Nat)
  | 0, _ => []
  | n + 1, c => ((getId c).1, c) :: idTrace n (getId c).2

/-- Reversed decimal digit characters of a natural number: most
significant digit first. -/
def decChars (n : Nat) : List Char :=
  ((Nat.digits 10 n).reverse).map Nat.digitChar

theorem toDigitsCore_eq (fuel : Nat) :
    ∀ (n : Nat) (ds : List Char), n < fuel →
      Nat.toDigitsCore 10 fuel n ds =
        (if n = 0 then [Char.ofNat 48] else decChars n) ++ ds := by
  induction fuel with
  | zero => intro n ds h; exact absurd h (Nat.not_lt_zero n)
  | succ fuel ih =>
    intro n ds h
    simp only [Nat.toDigitsCore]
    by_cases h10 : n / 10 = 0
    · simp only [h10, if_true]
      by_cases h0 : n = 0
      · subst h0
        simp [decChars, Nat.digitChar]
      · rw [if_neg h0]
        have hdig : Nat.digits 10 n = [n % 10] := by
          rw [Nat.digits_def' (by norm_num : (1:Nat) < 10) (Nat.pos_of_ne_zero h0), h10]
          simp
        simp [decChars, hdig]
    · simp only [h10, if_false]
      have hn0 : n ≠ 0 := by
        intro h0; subst h0; simp at h10
      have hlt : n / 10 < fuel := by
        have hd : n / 10 < n := Nat.div_lt_self (Nat.pos_of_ne_zero hn0) (by norm_num)
        omega
      rw [ih (n / 10) (Nat.digitChar (n % 10) :: ds) hlt, if_neg h10]
      have hdig : Nat.digits 10 n = n % 10 :: Nat.digits 10 (n / 10) :=
        Nat.digits_def' (by norm_num : (1:Nat) < 10) (Nat.pos_of_ne_zero hn0)
      simp [decChars, hdig, hn0]

theorem repr_eq_decChars (n : Nat) :
    Nat.repr n = (if n = 0 then [Char.ofNat 48] else decChars n).asString := by
  unfold Nat.repr Nat.toDigits
  rw [toDigitsCore_eq (n + 1) n [] (Nat.lt_succ_self n)]
  simp

/-- Decode a list of decimal digit characters back to the number. -/
def decodeChars (l : List Char) : Nat :=
  Nat.ofDigits 10 ((l.map fun c => c.toNat - 48).reverse)

theorem digitChar_val : ∀ d, d < 10 → (Nat.digitChar d).toNat - 48 = d := by decide

theorem decodeChars_decChars (n : Nat) : decodeChars (decChars n) = n := by
  unfold decodeChars decChars
  rw [List.map_map]
  have hcong : ((Nat.digits 10 n).reverse).map ((fun c => c.toNat - 48) ∘ Nat.digitChar)
      = ((Nat.digits 10 n).reverse).map id := by
    apply List.map_congr_left
    intro d hd
    have hdlt : d < 10 :=
      Nat.digits_lt_base (by norm_num) (List.mem_reverse.1 hd)
    simpa using digitChar_val d hdlt
  rw [hcong, List.map_id, List.reverse_reverse, Nat.ofDigits_digits]

theorem repr_injective : Function.Injective Nat.repr := by
  intro m n h
  rw [repr_eq_decChars, repr_eq_decChars] at h
  have h2 : (if m = 0 then [Char.ofNat 48] else decChars m)
      = (if n = 0 then [Char.ofNat 48] else decChars n) := by
    have := congrArg String.data h
    simpa [List.asString] using this
  have hz : decodeChars [Char.ofNat 48] = 0 := by
    simp [decodeChars, Nat.ofDigits]
  by_cases hm : m = 0 <;> by_cases hn : n = 0
  · omega
  · rw [if_pos hm, if_neg hn] at h2
    have := congrArg decodeChars h2
    rw [hz, decodeChars_decChars] at this
    omega
  · rw [if_neg hm, if_pos hn] at h2
    have := congrArg decodeChars h2
    rw [hz, decodeChars_decChars] at this
    omega
  · rw [if_neg hm, if_neg hn] at h2
    have := congrArg decodeChars h2
    rw [decodeChars_decChars, decodeChars_decChars] at this
    exact this

theorem append_repr_inj (p : String) {m n : Nat}
    (h : p ++ Nat.repr m = p ++ Nat.repr n) : m = n := by
  apply repr_injective
  have hd := congrArg String.data h
  simp only [String.data_append] at hd
  exact String.ext (List.append_cancel_left hd)

theorem handleSave_toasts (s : AppState) :
    (handleSave s).toasts = s.toasts ++
      [if s.nodes.length > 1 ∧ (nodesWithNoIncoming s.nodes s.edges).length > 1
       then failToast else successToast] := by
  unfold handleSave
  by_cases h : s.nodes.length > 1 ∧ (nodesWithNoIncoming s.nodes s.edges).length > 1 <;>
    simp [h]

/-- C1: for every graph, the save-time validation raises the
multiple-entry-points failure toast iff the graph has more than one
node and more than one root candidate (node that is no edge's target);
in every other case — 0 or 1 node, or at most one root candidate,
including two or more nodes all of which have an incoming edge — it
raises the success toast. -/
theorem save_validation_fails_iff (s : AppState) :
    ((handleSave s).toasts = s.toasts ++ [failToast] ↔
      s.nodes.length > 1 ∧ (nodesWithNoIncoming s.nodes s.edges).length > 1) ∧
    ((handleSave s).toasts = s.toasts ++ [successToast] ↔
      ¬(s.nodes.length > 1 ∧ (nodesWithNoIncoming s.nodes s.edges).length > 1)) := by
  have hne : failToast ≠ successToast := by decide
  rw [handleSave_toasts s]
  by_cases h : s.nodes.length > 1 ∧ (nodesWithNoIncoming s.nodes s.edges).length > 1 <;>
    simp [h, List.append_right_inj, hne, Ne.symm hne]

/-- C9: the save operation is pure inspection of the graph: it leaves
the node set, the edge set, the selection and both counters unchanged,
whether validation passes or fails, and only appends one toast to the
notification surface. -/
theorem handleSave_pure_inspection (s : AppState) :
    (handleSave s).nodes = s.nodes ∧
    (handleSave s).edges = s.edges ∧
    (handleSave s).selectedNodeId = s.selectedNodeId ∧
    (handleSave s).counter = s.counter ∧
    (handleSave s).edgeCounter = s.edgeCounter ∧
    ((handleSave s).toasts = s.toasts ++ [failToast] ∨
      (handleSave s).toasts = s.toasts ++ [successToast]) := by
  unfold handleSave
  by_cases h : s.nodes.length > 1 ∧ (nodesWithNoIncoming s.nodes s.edges).length > 1 <;>
    simp [h]

theorem idTrace_eq (n : Nat) :
    ∀ c, idTrace n c = (List.range' c n).map fun k => ("node_" ++ Nat.repr k, k) := by
  induction n with
  | zero => intro c; simp [idTrace]
  | succ n ih =>
    intro c
    rw [List.range'_succ]
    simp [idTrace, getId, ih]

theorem nodeId_injective :
    Function.Injective fun k => "node_" ++ Nat.repr k := by
  intro a b h
  exact append_repr_inj "node_" h

/-- C3: the identifier generator is never-repeating and strictly
increasing within a session: a run of `N` calls to `getId` starting at
counter 0 yields `N` identifiers; the consumed counter values are
exactly `0, 1, ..., N-1` (the counter starts at 0 and advances on every
call), the identifiers are pairwise distinct, successive calls consume
strictly increasing counters, and each identifier renders its call's
counter. -/
theorem getId_session_spec (N : Nat) :
    (idTrace N 0).length = N ∧
    (idTrace N 0).map Prod.snd = List.range N ∧
    ((idTrace N 0).map Prod.fst).Nodup ∧
    (idTrace N 0).Pairwise (fun p q => p.2 < q.2) ∧
    (∀ p ∈ idTrace N 0, p.1 = "node_" ++ Nat.repr p.2) := by
  have hsnd : (idTrace N 0).map Prod.snd = List.range N := by
    rw [idTrace_eq, List.map_map, List.range_eq_range']
    have hcomp : (Prod.snd ∘ fun k => (("node_" ++ Nat.repr k : String), k)) = id := rfl
    rw [hcomp, List.map_id]
  refine ⟨?_, hsnd, ?_, ?_, ?_⟩
  · rw [idTrace_eq]
    simp
  · rw [idTrace_eq, List.map_map]
    have hcomp : (Prod.fst ∘ fun k => (("node_" ++ Nat.repr k : String), k))
        = fun k => ("node_" ++ Nat.repr k : String) := rfl
    rw [hcomp]
    exact List.Nodup.map nodeId_injective (List.nodup_range' 0 N)
  · have : ((idTrace N 0).map Prod.snd).Pairwise (· < ·) := by
      rw [hsnd]; exact List.pairwise_lt_range N
    exact List.pairwise_map.mp this
  · intro p hp
    rw [idTrace_eq] at hp
    rcases List.mem_map.mp hp with ⟨k, _, hk⟩
    rw [← hk]

/-- Witness for C3 at a run of three calls. -/
theorem getId_session_spec_witness :
    (idTrace 3 0).length = 3 ∧ ((idTrace 3 0).map Prod.fst).Nodup ∧
    ("node_2" : String) = "node_" ++ Nat.repr 2 :=
  ⟨(getId_session_spec 3).1, (getId_session_spec 3).2.2.1,
    (getId_session_spec 3).2.2.2.2 ("node_2", 2) (by decide)⟩

/-- C4: dropping a node of type `default` at viewport point `(120, 80)`
with canvas origin `(20, 10)` and the identity pan/zoom transform
appends exactly one node, positioned at `(100, 70)`, whose id consumes
the next counter value and whose generated placeholder label contains
the next identifier's number (the source interpolates the counter after
it was incremented). -/
theorem drop_default_at_viewport_point (s : AppState) :
    (onDrop (some { left := 20, top := 10 }) (some identityViewport)
        "default" 120 80 s).nodes
      = s.nodes ++
        [{ id := "node_" ++ Nat.repr s.counter, type := "default",
           position := { x := 100, y := 70 },
           data := { label := Nat.repr (s.counter + 1) ++ " Node" } }] ∧
    (onDrop (some { left := 20, top := 10 }) (some identityViewport)
        "default" 120 80 s).counter = s.counter + 1 := by
  unfold onDrop
  rw [if_neg (by decide : ¬("default" = ""))]
  constructor
  · simp [screenToFlowPosition, identityViewport, getId]
    norm_num
  · simp [getId]

/-- C8: when the canvas bounding rectangle or the viewport transform is
unavailable at drop time, the drop is a complete no-op: the state, and
in particular the node set, is returned unchanged. -/
theorem drop_environment_not_ready (s : AppState) (payloadType : String)
    (clientX clientY : Rat) (b : Option Rect) (vp : Option Viewport) :
    onDrop none vp payloadType clientX clientY s = s ∧
    onDrop b none payloadType clientX clientY s = s := by
  constructor
  · unfold onDrop
    by_cases h : payloadType = "" <;> cases vp <;> simp [h]
  · unfold onDrop
    by_cases h : payloadType = "" <;> cases b <;> simp [h]

theorem find_sel_filter (nodes : List Node) (i : String) :
    (nodes.filter fun node => node.id != i).find?
      (fun node => some node.id == some i) = none := by
  rw [List.find?_eq_none]
  intro x hx
  have hne := (List.mem_filter.mp hx).2
  simp only [bne_iff_ne, ne_eq] at hne
  simp [hne]

/-- C6: removing the currently selected node through a change-set makes
the selection resolve to no active node on the next read: after
selecting node `i`, editing the label, and applying a removal
change-set for `i`, the re-derived `selectedNode` lookup is `none`. -/
theorem selection_resolves_to_none_after_removal (s : AppState) (i newLabel : String) :
    selectedNode (onNodesChange [NodeChange.remove i]
      (handleLabelChange newLabel (onNodeClick i s))) = none := by
  simp only [onNodeClick, handleLabelChange, onNodesChange, applyNodeChanges,
    List.foldl, applyNodeChange, selectedNode]
  exact find_sel_filter _ i

/-- C7: the label edit replaces `data.label` for exactly the node named
by the current selection, preserving its id, type and position and
every other node at its place; when nothing is selected, or no node
carries the selected id, the node set is left entirely unchanged. -/
theorem updateLabel_frame (s : AppState) (newLabel : String) (k : Nat) :
    ((handleLabelChange newLabel s).nodes.length = s.nodes.length) ∧
    (∀ node, s.nodes[k]? = some node → s.selectedNodeId ≠ some node.id →
      (handleLabelChange newLabel s).nodes[k]? = some node) ∧
    (∀ node, s.nodes[k]? = some node → s.selectedNodeId = some node.id →
      (handleLabelChange newLabel s).nodes[k]? =
        some { id := node.id, type := node.type, position := node.position,
               data := { label := newLabel } }) ∧
    (s.selectedNodeId = none → (handleLabelChange newLabel s).nodes = s.nodes) ∧
    ((∀ node ∈ s.nodes, s.selectedNodeId ≠ some node.id) →
      (handleLabelChange newLabel s).nodes = s.nodes) := by
  refine ⟨by simp [handleLabelChange], ?_, ?_, ?_, ?_⟩
  · intro node hk hne
    have hfalse : (some node.id == s.selectedNodeId) = false := by
      rw [beq_eq_false_iff_ne]
      exact fun h => hne h.symm
    simp [handleLabelChange, hk, hfalse]
    exact fun h => absurd h.symm hne
  · intro node hk heq
    have htrue : (some node.id == s.selectedNodeId) = true := by
      rw [heq]; simp
    simp [handleLabelChange, hk, htrue]
    exact fun h => absurd heq.symm h
  · intro hnone
    have hpoint : ∀ node ∈ s.nodes,
        (if some node.id == s.selectedNodeId then
          { node with data := { label := newLabel } } else node) = node := by
      intro node _
      rw [hnone]
      simp
    calc (handleLabelChange newLabel s).nodes
        = s.nodes.map (fun node =>
            if some node.id == s.selectedNodeId then
              { node with data := { label := newLabel } } else node) := rfl
      _ = s.nodes := by rw [List.map_congr_left hpoint]; exact List.map_id' s.nodes
  · intro hall
    have hpoint : ∀ node ∈ s.nodes,
        (if some node.id == s.selectedNodeId then
          { node with data := { label := newLabel } } else node) = node := by
      intro node hn
      have hfalse : (some node.id == s.selectedNodeId) = false := by
        rw [beq_eq_false_iff_ne]
        exact fun h => hall node hn h.symm
      simp [hfalse]
    calc (handleLabelChange newLabel s).nodes
        = s.nodes.map (fun node =>
            if some node.id == s.selectedNodeId then
              { node with data := { label := newLabel } } else node) := rfl
      _ = s.nodes := by rw [List.map_congr_left hpoint]; exact List.map_id' s.nodes

/-- A sample node with id `a`, used by concrete instances. -/
def nodeA : Node :=
  { id := "a", type := "default", position := { x := 0, y := 0 },
    data := { label := "A" } }

/-- A sample node with id `b`, used by concrete instances. -/
def nodeB : Node :=
  { id := "b", type := "default", position := { x := 5, y := 5 },
    data := { label := "B" } }

/-- A sample state with nodes `a`, `b` and node `b` selected. -/
def labelState : AppState :=
  { nodes := [nodeA, nodeB], edges := [], selectedNodeId := some "b",
    counter := 2, edgeCounter := 0, toasts := [] }

/-- Witness for C7 on a concrete two-node state with node `b`
selected. -/
theorem updateLabel_frame_witness :
    (handleLabelChange "Hello" labelState).nodes.length = labelState.nodes.length ∧
    (handleLabelChange "Hello" labelState).nodes[0]? = some nodeA ∧
    (handleLabelChange "Hello" labelState).nodes[1]? =
      some { id := nodeB.id, type := nodeB.type, position := nodeB.position,
             data := { label := "Hello" } } :=
  ⟨(updateLabel_frame labelState "Hello" 0).1,
   (updateLabel_frame labelState "Hello" 0).2.1 nodeA (by decide) (by decide),
   (updateLabel_frame labelState "Hello" 1).2.2.1 nodeB (by decide) (by decide)⟩

/-- The dangling-edge invariant of spec section 3: every edge's source
and target name a node present in the node set. -/
def edgeInvariant (s : AppState) : Prop :=
  ∀ e ∈ s.edges, e.source ∈ s.nodes.map Node.id ∧ e.target ∈ s.nodes.map Node.id

instance edgeInvariantDecidable (s : AppState) : Decidable (edgeInvariant s) := by
  unfold edgeInvariant
  infer_instance

/-- A sample state with nodes `a` and `b` and no edges. -/
def danglingState : AppState :=
  { nodes := [nodeA, nodeB], edges := [], selectedNodeId := none,
    counter := 2, edgeCounter := 0, toasts := [] }

/-- Counterexample to C2: on the two-node state, `connect(a, b)`
followed by a node-removal change-set for `a` leaves the connected edge
in the edge set while no node `a` remains, violating the dangling-edge
invariant. -/
theorem connect_remove_leaves_dangling_edge :
    (onNodesChange [NodeChange.remove "a"] (onConnect "a" "b" danglingState)).edges
      = [{ id := "edge_0", source := "a", target := "b" }] ∧
    (onNodesChange [NodeChange.remove "a"] (onConnect "a" "b" danglingState)).nodes.map Node.id
      = ["b"] ∧
    ¬ edgeInvariant (onNodesChange [NodeChange.remove "a"] (onConnect "a" "b" danglingState)) := by
  decide

/-- C2 amended: connect preserves the dangling-edge invariant when both
endpoints exist, but a node change-set never modifies the edge set, so
`connect(a, b)` followed by a node-removal change-set for `a` leaves an
edge whose source names the removed, no longer existing node. -/
theorem store_mutations_dangling_amended (s : AppState) (a b : String)
    (hinv : edgeInvariant s)
    (ha : a ∈ s.nodes.map Node.id) (hb : b ∈ s.nodes.map Node.id) :
    edgeInvariant (onConnect a b s) ∧
    (onNodesChange [NodeChange.remove a] (onConnect a b s)).edges
      = (onConnect a b s).edges ∧
    ∃ e ∈ (onNodesChange [NodeChange.remove a] (onConnect a b s)).edges,
      e.source = a ∧
      a ∉ (onNodesChange [NodeChange.remove a] (onConnect a b s)).nodes.map Node.id := by
  refine ⟨?_, rfl, ?_⟩
  · intro e he
    rcases List.mem_append.mp he with h | h
    · exact hinv e h
    · rw [List.mem_singleton.mp h]
      exact ⟨ha, hb⟩
  · refine ⟨{ id := "edge_" ++ Nat.repr s.edgeCounter, source := a, target := b },
      List.mem_append_right _ (List.mem_singleton.mpr rfl), rfl, ?_⟩
    intro hmem
    rcases List.mem_map.mp hmem with ⟨node, hn, hid⟩
    have hfil := (List.mem_filter.mp hn).2
    rw [hid] at hfil
    simp at hfil

/-- Witness for the amended C2 on the concrete two-node state. -/
theorem store_mutations_dangling_amended_witness :
    edgeInvariant (onConnect "a" "b" danglingState) ∧
    (onNodesChange [NodeChange.remove "a"] (onConnect "a" "b" danglingState)).edges
      = (onConnect "a" "b" danglingState).edges ∧
    ∃ e ∈ (onNodesChange [NodeChange.remove "a"] (onConnect "a" "b" danglingState)).edges,
      e.source = "a" ∧
      "a" ∉ (onNodesChange [NodeChange.remove "a"]
        (onConnect "a" "b" danglingState)).nodes.map Node.id :=
  store_mutations_dangling_amended danglingState "a" "b"
    (by decide) (by decide) (by decide)

/-- C5: the connect operation appends freely: two successive connects
of the same ordered pair append two edges from `a` to `b` carrying
distinct freshly generated ids, and connecting a node to itself appends
a self-loop edge. -/
theorem connect_allows_parallel_and_self (s : AppState) (a b : String) :
    (onConnect a b (onConnect a b s)).edges
      = s.edges ++
        [{ id := "edge_" ++ Nat.repr s.edgeCounter, source := a, target := b },
         { id := "edge_" ++ Nat.repr (s.edgeCounter + 1), source := a, target := b }] ∧
    ("edge_" ++ Nat.repr s.edgeCounter : String)
      ≠ "edge_" ++ Nat.repr (s.edgeCounter + 1) ∧
    (onConnect a a s).edges
      = s.edges ++ [{ id := "edge_" ++ Nat.repr s.edgeCounter,
                      source := a, target := a }] := by
  refine ⟨?_, ?_, rfl⟩
  · simp [onConnect, addEdge]
  · intro h
    have := append_repr_inj "edge_" h
    omega

/-- Witness for C5 on the concrete two-node state. -/
theorem connect_allows_parallel_and_self_witness :
    (onConnect "a" "b" (onConnect "a" "b" danglingState)).edges
      = danglingState.edges ++
        [{ id := "edge_" ++ Nat.repr danglingState.edgeCounter,
           source := "a", target := "b" },
         { id := "edge_" ++ Nat.repr (danglingState.edgeCounter + 1),
           source := "a", target := "b" }] ∧
    ("edge_" ++ Nat.repr danglingState.edgeCounter : String)
      ≠ "edge_" ++ Nat.repr (danglingState.edgeCounter + 1) ∧
    (onConnect "a" "a" danglingState).edges
      = danglingState.edges ++
        [{ id := "edge_" ++ Nat.repr danglingState.edgeCounter,
           source := "a", target := "a" }] :=
  connect_allows_parallel_and_self danglingState "a" "b"

/-- Root-candidate count as a function of the node id list and the
edge target list alone. -/
def rootCount (ids targets : List String) : Nat :=
  (ids.filter fun i => !(targets.any fun t => t == i)).length

theorem any_map_comp {α β : Type} (f : α → β) (l : List α) (p : β → Bool) :
    (l.map f).any p = l.any fun a => p (f a) := by
  induction l with
  | nil => rfl
  | cons a l ih => simp [List.any_cons, ih]

theorem nodesWithNoIncoming_length (nodes : List Node) (edges : List Edge) :
    (nodesWithNoIncoming nodes edges).length
      = rootCount (nodes.map Node.id) (edges.map Edge.target) := by
  unfold nodesWithNoIncoming rootCount
  rw [List.filter_map, List.length_map]
  congr 2
  funext node
  simp only [Function.comp_apply]
  rw [any_map_comp Edge.target edges fun t => t == node.id]

theorem rootCount_perm {ids1 ids2 tgts1 tgts2 : List String}
    (hid : ids1.Perm ids2) (ht : tgts1.Perm tgts2) :
    rootCount ids1 tgts1 = rootCount ids2 tgts2 := by
  unfold rootCount
  have hpred : ∀ i, (tgts1.any fun t => t == i) = (tgts2.any fun t => t == i) := by
    intro i
    by_cases hin : i ∈ tgts1
    · rw [List.any_beq'.mpr hin, List.any_beq'.mpr (ht.mem_iff.mp hin)]
    · have e1 : (tgts1.any fun t => t == i) = false :=
        Bool.eq_false_iff.mpr fun h => hin (List.any_beq'.mp h)
      have e2 : (tgts2.any fun t => t == i) = false :=
        Bool.eq_false_iff.mpr fun h => hin (ht.mem_iff.mpr (List.any_beq'.mp h))
      rw [e1, e2]
  have hfil : (ids1.filter fun i => !(tgts1.any fun t => t == i)).Perm
      (ids2.filter fun i => !(tgts2.any fun t => t == i)) := by
    have heq : (ids2.filter fun i => !(tgts1.any fun t => t == i))
        = ids2.filter fun i => !(tgts2.any fun t => t == i) :=
      List.filter_congr fun i _ => by rw [hpred i]
    have hstep := hid.filter fun i => !(tgts1.any fun t => t == i)
    rw [heq] at hstep
    exact hstep
  exact hfil.length_eq

theorem handleSave_fail_iff (s : AppState) :
    (handleSave s).toasts = s.toasts ++ [failToast] ↔
      s.nodes.length > 1 ∧ (nodesWithNoIncoming s.nodes s.edges).length > 1 := by
  have hne : failToast ≠ successToast := by decide
  rw [handleSave_toasts s]
  by_cases h : s.nodes.length > 1 ∧ (nodesWithNoIncoming s.nodes s.edges).length > 1 <;>
    simp [h, List.append_right_inj, hne, Ne.symm hne]

/-- C10: the save-time verdict depends only on the node ids and the
multiset of edge target ids: two states whose duplicate-free node id
lists carry the same set of ids and whose edge target lists are
permutations of each other receive the same verdict, regardless of
node positions, labels, types, edge ids and edge sources. -/
theorem save_verdict_depends_only_on_ids_and_targets (s1 s2 : AppState)
    (h1 : (s1.nodes.map Node.id).Nodup) (h2 : (s2.nodes.map Node.id).Nodup)
    (hids : (s1.nodes.map Node.id).toFinset = (s2.nodes.map Node.id).toFinset)
    (htgts : (s1.edges.map Edge.target).Perm (s2.edges.map Edge.target)) :
    ((handleSave s1).toasts = s1.toasts ++ [failToast] ↔
      (handleSave s2).toasts = s2.toasts ++ [failToast]) := by
  have hperm : (s1.nodes.map Node.id).Perm (s2.nodes.map Node.id) :=
    List.perm_of_nodup_nodup_toFinset_eq h1 h2 hids
  have hlen : s1.nodes.length = s2.nodes.length := by
    have := hperm.length_eq
    simpa using this
  have hcount : (nodesWithNoIncoming s1.nodes s1.edges).length
      = (nodesWithNoIncoming s2.nodes s2.edges).length := by
    rw [nodesWithNoIncoming_length, nodesWithNoIncoming_length]
    exact rootCount_perm hperm htgts
  rw [handleSave_fail_iff, handleSave_fail_iff, hlen, hcount]

/-- A sample node with id `a` and attributes differing from `nodeA`. -/
def nodeA2 : Node :=
  { id := "a", type := "input", position := { x := 9, y := 9 },
    data := { label := "other" } }

/-- A sample node with id `b` and attributes differing from `nodeB`. -/
def nodeB2 : Node :=
  { id := "b", type := "default", position := { x := 1, y := 2 },
    data := { label := "Z" } }

/-- A sample state for the verdict-dependency instance. -/
def verdictState1 : AppState :=
  { nodes := [nodeA, nodeB], edges := [{ id := "e1", source := "a", target := "b" }],
    selectedNodeId := none, counter := 0, edgeCounter := 0, toasts := [] }

/-- A second sample state with the same node ids and edge targets but
different order, positions, labels, types, edge ids and edge
sources. -/
def verdictState2 : AppState :=
  { nodes := [nodeB2, nodeA2], edges := [{ id := "zz", source := "b", target := "b" }],
    selectedNodeId := some "a", counter := 7, edgeCounter := 3, toasts := [] }

/-- Witness for C10 on two concrete states agreeing only in node ids
and edge targets. -/
theorem save_verdict_depends_only_witness :
    (handleSave verdictState1).toasts = verdictState1.toasts ++ [failToast] ↔
      (handleSave verdictState2).toasts = verdictState2.toasts ++ [failToast] :=
  save_verdict_depends_only_on_ids_and_targets verdictState1 verdictState2
    (by decide) (by decide) (by decide) (by decide)

end ChatbotFlow
